import Mathlib

/-!
Shallow embedding of the CardioGenie intake conversation core
(`src/backend/main.py`, `src/backend/config.py`, `src/database/models.py`).

The embedding models the session state machine exactly as the Python source
implements it.  External collaborators (the LLM extractor, the LLM phrasing
step, notification delivery, persistence) are parameters of the step
function: the Information Extractor's output for the current message is an
`ExtractedInfo` value, the phrasing delegate's reply is an arbitrary string,
and the medical rule dataset (the JSON file `config.MEDICAL_DATASET_PATH`)
is a `List DatasetItem`.  Dispatching the notification side effect is
recorded as a boolean in the step output.  Python dictionaries keyed by
strings are modelled as insertion-ordered association lists with
overwrite-in-place semantics; Python truthiness of optional strings and
integers is modelled explicitly (`strTruthy`, `intTruthy`).  A Python
`KeyError` (the unguarded `patient.responses[patient.current_symptom]`
access in `process_follow_up`) is modelled by an `Option` result.
-/

namespace CardioGenie

/-- Python substring containment on character lists: `needle in hay`. -/
def pyInChars (needle : List Char) : List Char → Bool
  | [] => needle.isEmpty
  | c :: t => needle.isPrefixOf (c :: t) || pyInChars needle t

/-- Python's `needle in hay` for strings (substring containment). -/
def pyIn (needle hay : String) : Bool :=
  pyInChars needle.toList hay.toList

/-- Python's `str.lower()` (ASCII case folding, applied characterwise). -/
def pyLower (s : String) : String := String.mk (s.toList.map Char.toLower)

/-- Python's `str.strip()` on a character list: drop leading and trailing
whitespace. -/
def pyStripChars (l : List Char) : List Char :=
  ((l.dropWhile Char.isWhitespace).reverse.dropWhile Char.isWhitespace).reverse

/-- Python's `str.strip()` for strings. -/
def pyStrip (s : String) : String := String.mk (pyStripChars s.toList)

/-- Python truthiness of an optional string (`None` and `""` are falsy). -/
def strTruthy : Option String → Bool
  | none => false
  | some s => !(s == "")

/-- Python truthiness of an optional integer (`None` and `0` are falsy). -/
def intTruthy : Option Int → Bool
  | none => false
  | some n => !(n == 0)

/-- One record of the medical rule dataset
(`{symptom, follow_up_questions: {symptom_details, vital_signs, red_flags,
medical_history, ...}}`); `none` models an absent category key. -/
structure DatasetItem where
  symptom : String
  symptom_details : Option (List String)
  vital_signs : Option (List String)
  red_flags : Option (List String)
  medical_history : Option (List String)
deriving Repr, DecidableEq

/-- The conversation phases of `PatientSession.phase`. -/
inductive Phase where
  | basic_info
  | symptoms
  | follow_up
  | completed
deriving Repr, DecidableEq

/-- Rank of a phase in the intended forward ordering
`basic_info < symptoms < follow_up < completed`. -/
def Phase.rank : Phase → Nat
  | .basic_info => 0
  | .symptoms => 1
  | .follow_up => 2
  | .completed => 3

/-- The mutable per-session state of `PatientSession` (`main.py`).  The
`conversation_history` field is a write-only audit log never read by the
decision logic and is omitted.  `responses` is the Python dict
`Dict[str, List[str]]`, modelled as an insertion-ordered association list. -/
structure PatientSession where
  name : Option String
  email : Option String
  age : Option Int
  gender : Option String
  symptoms : List String
  responses : List (String × List String)
  phase : Phase
  currentSymptom : Option String
  currentQuestionIndex : Nat
deriving Repr, DecidableEq

/-- A fresh session as built by `PatientSession.__init__`. -/
def initialSession : PatientSession :=
  { name := none, email := none, age := none, gender := none,
    symptoms := [], responses := [], phase := Phase.basic_info,
    currentSymptom := none, currentQuestionIndex := 0 }

/-- Dict lookup `d.get(k)` on the association-list model. -/
def dictGet (d : List (String × List String)) (k : String) : Option (List String) :=
  match d.find? (fun kv => kv.1 == k) with
  | some kv => some kv.2
  | none => none

/-- Python `k in d` on the association-list model. -/
def dictHasKey (d : List (String × List String)) (k : String) : Bool :=
  (dictGet d k).isSome

/-- Python `d[k] = v`: overwrite in place if the key exists, else append. -/
def dictSet (d : List (String × List String)) (k : String) (v : List String) :
    List (String × List String) :=
  if dictHasKey d k then
    d.map (fun kv => if kv.1 == k then (kv.1, v) else kv)
  else
    d ++ [(k, v)]

/-- Python `d[k].append(v)` for a key already present. -/
def dictAppend (d : List (String × List String)) (k : String) (v : String) :
    List (String × List String) :=
  d.map (fun kv => if kv.1 == k then (kv.1, kv.2 ++ [v]) else kv)

/-- `Config.MAX_FOLLOW_UP_QUESTIONS` (`config.py`). -/
def MAX_FOLLOW_UP_QUESTIONS : Nat := 2

/-- The partial update returned by the Information Extractor delegate
(`ai_service.extract_patient_information`) for one message. -/
structure ExtractedInfo where
  name : Option String
  email : Option String
  age : Option Int
  gender : Option String
deriving Repr, DecidableEq

/-- `if extracted_info.get(f) and not patient.f: patient.f = extracted_info[f]`
for a string field. -/
def updateIfEmptyStr (cur new : Option String) : Option String :=
  if strTruthy new && !(strTruthy cur) then new else cur

/-- The same write-once-if-empty update for the integer `age` field. -/
def updateIfEmptyInt (cur new : Option Int) : Option Int :=
  if intTruthy new && !(intTruthy cur) then new else cur

/-- The hardcoded symptom keyword list inside `process_basic_info`. -/
def basicInfoSymptomKeywords : List String :=
  ["pain", "chest", "heart", "breath", "dizzy", "tired", "fatigue",
   "palpitation", "pressure"]

/-- `process_basic_info` (`main.py` lines 609-651): apply the extractor's
partial update write-once-if-empty, then advance to the `symptoms` phase
when the smart-progression condition holds. -/
def processBasicInfo (ext : ExtractedInfo) (p : PatientSession) (message : String) :
    PatientSession :=
  let p1 := { p with
    name := updateIfEmptyStr p.name ext.name,
    email := updateIfEmptyStr p.email ext.email,
    age := updateIfEmptyInt p.age ext.age,
    gender := updateIfEmptyStr p.gender ext.gender }
  let hasName := strTruthy p1.name
  let hasEmail := strTruthy p1.email
  let hasAge := intTruthy p1.age
  let hasGender := strTruthy p1.gender
  let infoCount := (if hasName then 1 else 0) + (if hasEmail then 1 else 0) +
    (if hasAge then 1 else 0) + (if hasGender then 1 else 0)
  let mentionsSymptoms := basicInfoSymptomKeywords.any (fun k => pyIn k (pyLower message))
  if 4 ≤ infoCount || (3 ≤ infoCount && mentionsSymptoms) ||
      (hasName && hasEmail && mentionsSymptoms) then
    { p1 with phase := Phase.symptoms }
  else
    p1

/-- The curated synonym sets of `generate_symptom_keywords`, keyed by a
substring match on the lowercased symptom name (the Python `if`/`elif`
chain). -/
def symptomVariations (symptom : String) : List String :=
  if pyIn "chest pain" symptom then
    ["chest pain", "chest hurt", "chest discomfort", "heart pain"]
  else if pyIn "shortness of breath" symptom then
    ["short of breath", "difficulty breathing", "breathless", "dyspnea"]
  else if pyIn "palpitation" symptom then
    ["heart racing", "irregular heartbeat", "palpitation", "heart flutter"]
  else if pyIn "fatigue" symptom then
    ["tired", "exhausted", "weakness", "fatigue"]
  else if pyIn "dizziness" symptom then
    ["dizzy", "lightheaded", "faint", "vertigo"]
  else
    []

/-- `generate_symptom_keywords` (`main.py` lines 728-761): the dict from
lowercased symptom name to its keyword list, built over the dataset in
order with Python-dict overwrite semantics for duplicate names. -/
def generateSymptomKeywords (catalog : List DatasetItem) :
    List (String × List String) :=
  catalog.foldl
    (fun acc item =>
      let symptom := pyLower item.symptom
      dictSet acc symptom ([symptom] ++ symptomVariations symptom))
    []

/-- The `detected_symptoms` list computed inside `process_symptoms`: the
keys of the keyword dict, in dict iteration order, whose keyword list has
a member occurring as a substring of the lowercased message. -/
def detectedSymptomsIn (catalog : List DatasetItem) (message : String) : List String :=
  let kw := generateSymptomKeywords catalog
  let ml := pyLower message
  (kw.filter (fun kv => kv.2.any (fun k => pyIn k ml))).map Prod.fst

/-- Python's `list(set(xs))` for the deduplication in `process_symptoms`.
A CPython set iterates in an unspecified (hash-based) order; the model
keeps the first occurrence of each element.  All theorems below depend
only on membership and uniqueness of the result, which hold in either
case. -/
def pySetList (xs : List String) : List String := xs.dedup

/-- `process_symptoms` (`main.py` lines 654-671). -/
def processSymptoms (catalog : List DatasetItem) (p : PatientSession)
    (message : String) : PatientSession :=
  let detected := detectedSymptomsIn catalog message
  match detected with
  | [] => p
  | d :: _ =>
    { p with symptoms := pySetList (p.symptoms ++ detected),
             phase := Phase.follow_up,
             currentSymptom := some d,
             currentQuestionIndex := 0 }

/-- `process_follow_up` (`main.py` lines 673-690), with the source's actual
indentation: the key-initialisation block is guarded by the truthiness of
`current_symptom`, but the `responses[current_symptom].append(...)` access,
the index increment and the completion check are unconditional.  `none`
models the uncaught `KeyError` raised by the unguarded access when
`current_symptom` is absent from `responses` (in particular when it is
`None`). -/
def processFollowUp (p : PatientSession) (message : String) : Option PatientSession :=
  let resp1 :=
    if strTruthy p.currentSymptom then
      match p.currentSymptom with
      | some cs =>
        if dictHasKey p.responses cs then p.responses else p.responses ++ [(cs, [])]
      | none => p.responses
    else p.responses
  match p.currentSymptom with
  | none => none
  | some cs =>
    if dictHasKey resp1 cs then
      let resp2 := dictAppend resp1 cs (pyStrip message)
      let idx := p.currentQuestionIndex + 1
      if MAX_FOLLOW_UP_QUESTIONS ≤ idx then
        some { p with responses := resp2, currentQuestionIndex := idx,
                      phase := Phase.completed, currentSymptom := none }
      else
        some { p with responses := resp2, currentQuestionIndex := idx }
    else none

/-- The graceful closing line returned by `get_next_follow_up_question`
when the symptom has no dataset entry (and by its exception handler). -/
def fallbackClosingLine : String :=
  "Thank you for that information. Let me schedule your consultation."

/-- The closing line returned by `get_next_follow_up_question` when all
questions have been asked. -/
def completionClosingLine : String :=
  "Thank you for providing all the information. I'm now scheduling your consultation with the cardiologist."

/-- The dataset lookup inside `get_next_follow_up_question`: first record
whose lowercased symptom name equals the lowercased current symptom. -/
def findSymptomData (catalog : List DatasetItem) (cs : String) : Option DatasetItem :=
  catalog.find? (fun item => pyLower item.symptom == pyLower cs)

/-- The `all_questions` list of `get_next_follow_up_question`: the
concatenation of the categories `symptom_details`, `vital_signs` and
`medical_history` of the record, in that order, skipping absent
categories and with no per-category cap. -/
def sequencerQuestions (item : DatasetItem) : List String :=
  item.symptom_details.getD [] ++ item.vital_signs.getD [] ++
    item.medical_history.getD []

/-- `get_next_follow_up_question` (`main.py` lines 692-726).  When
`current_symptom` is `None` the attribute access `.lower()` raises and the
`except` handler returns the fallback line, leaving the session untouched;
the whole body is inside `try`/`except`, so the function never raises. -/
def getNextFollowUpQuestion (catalog : List DatasetItem) (p : PatientSession) :
    String × PatientSession :=
  match p.currentSymptom with
  | none => (fallbackClosingLine, p)
  | some cs =>
    match findSymptomData catalog cs with
    | none => (fallbackClosingLine, p)
    | some item =>
      let allQuestions := sequencerQuestions item
      if h : p.currentQuestionIndex < allQuestions.length ∧
          p.currentQuestionIndex < MAX_FOLLOW_UP_QUESTIONS then
        (allQuestions.get ⟨p.currentQuestionIndex, h.1⟩, p)
      else
        (completionClosingLine, { p with phase := Phase.completed })

/-- `is_consultation_complete` (`main.py` lines 763-778).  Note that
`len(patient.responses)` is the number of keys of the responses dict, i.e.
the number of symptoms that have a recorded answer list. -/
def isConsultationComplete (p : PatientSession) : Bool :=
  let essentialInfo := strTruthy p.name && strTruthy p.email
  let demographicInfo := intTruthy p.age || strTruthy p.gender
  let hasSymptoms := decide (0 < p.symptoms.length)
  let hasResponses := decide (0 < p.responses.length)
  (essentialInfo && demographicInfo && hasSymptoms && hasResponses) ||
    (essentialInfo && hasSymptoms && decide (2 ≤ p.responses.length))

/-- Rendering of an optional string in the completion template (`None`
for an unset field, as Python's f-string prints it). -/
def optStrRepr : Option String → String
  | none => "None"
  | some s => s

/-- Rendering of the optional age in the completion template. -/
def optIntRepr : Option Int → String
  | none => "None"
  | some n => toString n

/-- `generate_completion_message` (`main.py` lines 795-810); the fixed
template text around the interpolated fields is abbreviated. -/
def generateCompletionMessage (p : PatientSession) : String :=
  "Consultation Complete Summary: Patient: " ++ optStrRepr p.name ++
    " Email: " ++ optStrRepr p.email ++ " Age: " ++ optIntRepr p.age ++
    " Symptoms: " ++ String.intercalate ", " p.symptoms ++
    " Next Steps: Doctor notification sent. Thank you for using CardioGenie."

/-- Result of processing one inbound message: the new session state, the
outbound response text, and whether `send_notifications` (the summary
dispatch followed by the appointment-scheduling dispatch) was invoked
during this step. -/
structure StepOutput where
  session : PatientSession
  response : String
  notified : Bool
deriving Repr, DecidableEq

/-- `process_patient_message` (`main.py` lines 568-607) for an existing
session: dispatch on the phase, re-evaluate the completion predicate
(notifying and returning the completion template when it holds), otherwise
answer from the Follow-up Sequencer in `follow_up` or from the phrasing
delegate (`aiResponse`) elsewhere.  `none` models the uncaught `KeyError`
from `process_follow_up`. -/
def processPatientMessage (catalog : List DatasetItem) (ext : ExtractedInfo)
    (aiResponse : String) (p : PatientSession) (message : String) :
    Option StepOutput :=
  let phased : Option PatientSession :=
    match p.phase with
    | Phase.basic_info => some (processBasicInfo ext p message)
    | Phase.symptoms => some (processSymptoms catalog p message)
    | Phase.follow_up => processFollowUp p message
    | Phase.completed => some p
  match phased with
  | none => none
  | some p1 =>
    if isConsultationComplete p1 then
      let p2 := { p1 with phase := Phase.completed }
      some ⟨p2, generateCompletionMessage p2, true⟩
    else if p1.phase == Phase.follow_up && strTruthy p1.currentSymptom then
      let q := getNextFollowUpQuestion catalog p1
      some ⟨q.2, q.1, false⟩
    else
      some ⟨p1, aiResponse, false⟩

/-- `DatabaseManager._load_medical_dataset` (`models.py` lines 92-125): the
follow-up question list stored in the `symptom_rules` table for one
record — at most 2 `symptom_details` questions, then at most 1
`vital_signs` question, then at most 1 `red_flags` question, truncated to
at most 4 entries. -/
def loadedFollowUpQuestions (item : DatasetItem) : List String :=
  ((item.symptom_details.getD []).take 2 ++ (item.vital_signs.getD []).take 1 ++
    (item.red_flags.getD []).take 1).take 4

/-- The states reachable by a session: the fresh session, closed under
processing one inbound message with an arbitrary extractor output and
phrasing-delegate reply. -/
inductive Reachable (catalog : List DatasetItem) : PatientSession → Prop where
  | init : Reachable catalog initialSession
  | step : ∀ {p : PatientSession} (ext : ExtractedInfo) (aiResponse message : String)
      (out : StepOutput), Reachable catalog p →
      processPatientMessage catalog ext aiResponse p message = some out →
      Reachable catalog out.session

/-- Total number of recorded follow-up answers across all symptoms:
the sum of the lengths of the answer lists of the responses dict.  (The
code's `len(patient.responses)` counts keys instead.) -/
def totalRecordedResponses (p : PatientSession) : Nat :=
  (p.responses.map (fun kv => kv.2.length)).sum

/-- The completion criterion as the specification words it: essential
info (name and email) with symptoms and at least two recorded follow-up
responses, or essential info with a demographic field, symptoms and a
non-empty responses mapping.  Stated for comparison with the source's
`isConsultationComplete`. -/
def specClaimedComplete (p : PatientSession) : Bool :=
  (strTruthy p.name && strTruthy p.email && !p.symptoms.isEmpty &&
    decide (2 ≤ totalRecordedResponses p)) ||
  (strTruthy p.name && strTruthy p.email && (intTruthy p.age || strTruthy p.gender) &&
    !p.symptoms.isEmpty && !p.responses.isEmpty)

/-- A dataset record with three symptom-detail questions, two vital-sign
questions, one red-flag question and one medical-history question. -/
def sampleChestItem : DatasetItem :=
  { symptom := "Chest Pain / Discomfort",
    symptom_details := some ["cd1", "cd2", "cd3"],
    vital_signs := some ["cv1", "cv2"],
    red_flags := some ["cr1"],
    medical_history := some ["cm1"] }

/-- A dataset record with a single follow-up question overall. -/
def sampleFatigueItem : DatasetItem :=
  { symptom := "Fatigue",
    symptom_details := some ["f1"],
    vital_signs := none,
    red_flags := none,
    medical_history := none }

/-- A dataset record whose only questions live in the `red_flags` and
`medical_history` categories. -/
def samplePalpItem : DatasetItem :=
  { symptom := "Palpitations",
    symptom_details := none,
    vital_signs := none,
    red_flags := some ["rf1"],
    medical_history := some ["mh1"] }

/-- A small concrete rule dataset used for concrete evaluations. -/
def sampleCatalog : List DatasetItem := [sampleChestItem, sampleFatigueItem]

/-- An extractor output that found nothing (`{}` from the delegate). -/
def noExtraction : ExtractedInfo :=
  { name := none, email := none, age := none, gender := none }

/-- The extractor output of the Jane scenario: name and email found,
nothing else. -/
def janeExtraction : ExtractedInfo :=
  { name := some "Jane", email := some "jane@x.com", age := none, gender := none }

/-- A mid-follow-up session with essential info, one detected symptom and
two recorded answers for it (one responses key). -/
def sessionTwoAnswersOneKey : PatientSession :=
  { name := some "Ann Lee", email := some "ann@x.com", age := none, gender := none,
    symptoms := ["chest pain / discomfort"],
    responses := [("chest pain / discomfort", ["a1", "a2"])],
    phase := Phase.follow_up,
    currentSymptom := some "chest pain / discomfort",
    currentQuestionIndex := 2 }

/-- An already-completed session that satisfies the completion predicate. -/
def sessionDone : PatientSession :=
  { name := some "Ann Lee", email := some "ann@x.com", age := some 30, gender := none,
    symptoms := ["chest pain / discomfort"],
    responses := [("chest pain / discomfort", ["a1", "a2"])],
    phase := Phase.completed,
    currentSymptom := none,
    currentQuestionIndex := 2 }

/-- A follow-up session interviewing `fatigue` before its first answer. -/
def sessionFatigue : PatientSession :=
  { name := none, email := none, age := none, gender := none,
    symptoms := ["fatigue"], responses := [],
    phase := Phase.follow_up,
    currentSymptom := some "fatigue",
    currentQuestionIndex := 0 }

/-- A follow-up session whose current symptom has no dataset record. -/
def sessionUnknownSymptom : PatientSession :=
  { name := none, email := none, age := none, gender := none,
    symptoms := ["weird"], responses := [],
    phase := Phase.follow_up,
    currentSymptom := some "weird",
    currentQuestionIndex := 0 }

/-- A follow-up session interviewing `palpitations` before its first
answer. -/
def sessionPalp : PatientSession :=
  { name := none, email := none, age := none, gender := none,
    symptoms := ["palpitations"], responses := [],
    phase := Phase.follow_up,
    currentSymptom := some "palpitations",
    currentQuestionIndex := 0 }

/-- A symptoms-phase session holding name and email. -/
def sessionSymptomsPhase : PatientSession :=
  { name := some "Ann Lee", email := some "ann@x.com", age := none, gender := none,
    symptoms := [], responses := [],
    phase := Phase.symptoms,
    currentSymptom := none,
    currentQuestionIndex := 0 }

/-- The step output produced by processing one further message on
`sessionDone` (an already-completed session). -/
def sessionDoneStepOutput : StepOutput :=
  { session := { sessionDone with phase := Phase.completed },
    response := generateCompletionMessage { sessionDone with phase := Phase.completed },
    notified := true }

/-- The step output produced by processing the first follow-up answer of
`sessionFatigue` against the one-question record `sampleFatigueItem`. -/
def sessionFatigueStepOutput : StepOutput :=
  { session :=
      { sessionFatigue with
        responses := [("fatigue", ["ans"])],
        currentQuestionIndex := 1,
        phase := Phase.completed },
    response := completionClosingLine,
    notified := false }

/-- The inductive invariant of reachable sessions: in `follow_up` the
current symptom is a non-empty string listed in `symptoms` (with its
responses key present once an answer has been recorded), and every
responses key is a listed symptom. -/
def SessionInv (p : PatientSession) : Prop :=
  (p.phase = Phase.follow_up →
    ∃ cs, p.currentSymptom = some cs ∧ cs ≠ "" ∧ cs ∈ p.symptoms ∧
      (0 < p.currentQuestionIndex → dictHasKey p.responses cs = true)) ∧
  (∀ k, k ∈ p.responses.map Prod.fst → k ∈ p.symptoms)

/-- The `info_count` local of `process_basic_info`: how many of the four
demographic fields are truthy after the extractor's write-once update. -/
def infoCountAfter (ext : ExtractedInfo) (p : PatientSession) : Nat :=
  (if strTruthy (updateIfEmptyStr p.name ext.name) then 1 else 0) +
    (if strTruthy (updateIfEmptyStr p.email ext.email) then 1 else 0) +
    (if intTruthy (updateIfEmptyInt p.age ext.age) then 1 else 0) +
    (if strTruthy (updateIfEmptyStr p.gender ext.gender) then 1 else 0)

/-- The `mentions_symptoms` local of `process_basic_info`: whether the
lowercased message contains one of the hardcoded symptom keywords. -/
def mentionsSymptomKeyword (message : String) : Bool :=
  basicInfoSymptomKeywords.any (fun k => pyIn k (pyLower message))

/-! ### Helper lemmas -/

theorem strTruthy_some {s : String} (h : s ≠ "") : strTruthy (some s) = true := by
  simp [strTruthy, h]

theorem updateIfEmptyStr_of_set {cur : Option String} (new : Option String)
    (h : strTruthy cur = true) : updateIfEmptyStr cur new = cur := by
  simp [updateIfEmptyStr, h]

theorem updateIfEmptyInt_of_set {cur : Option Int} (new : Option Int)
    (h : intTruthy cur = true) : updateIfEmptyInt cur new = cur := by
  simp [updateIfEmptyInt, h]

theorem processBasicInfo_name (ext : ExtractedInfo) (p : PatientSession) (msg : String) :
    (processBasicInfo ext p msg).name = updateIfEmptyStr p.name ext.name := by
  simp [processBasicInfo, apply_ite PatientSession.name]

theorem processBasicInfo_email (ext : ExtractedInfo) (p : PatientSession) (msg : String) :
    (processBasicInfo ext p msg).email = updateIfEmptyStr p.email ext.email := by
  simp [processBasicInfo, apply_ite PatientSession.email]

theorem processBasicInfo_age (ext : ExtractedInfo) (p : PatientSession) (msg : String) :
    (processBasicInfo ext p msg).age = updateIfEmptyInt p.age ext.age := by
  simp [processBasicInfo, apply_ite PatientSession.age]

theorem processBasicInfo_gender (ext : ExtractedInfo) (p : PatientSession) (msg : String) :
    (processBasicInfo ext p msg).gender = updateIfEmptyStr p.gender ext.gender := by
  simp [processBasicInfo, apply_ite PatientSession.gender]

theorem processBasicInfo_symptoms (ext : ExtractedInfo) (p : PatientSession) (msg : String) :
    (processBasicInfo ext p msg).symptoms = p.symptoms := by
  simp [processBasicInfo, apply_ite PatientSession.symptoms]

theorem processBasicInfo_responses (ext : ExtractedInfo) (p : PatientSession) (msg : String) :
    (processBasicInfo ext p msg).responses = p.responses := by
  simp [processBasicInfo, apply_ite PatientSession.responses]

theorem processBasicInfo_currentSymptom (ext : ExtractedInfo) (p : PatientSession) (msg : String) :
    (processBasicInfo ext p msg).currentSymptom = p.currentSymptom := by
  simp [processBasicInfo, apply_ite PatientSession.currentSymptom]

theorem processBasicInfo_phase (ext : ExtractedInfo) (p : PatientSession) (msg : String) :
    (processBasicInfo ext p msg).phase = p.phase ∨
      (processBasicInfo ext p msg).phase = Phase.symptoms := by
  simp only [processBasicInfo, apply_ite PatientSession.phase]
  exact Or.symm (ite_eq_or_eq _ _ _)

theorem processSymptoms_of_none {catalog : List DatasetItem} {msg : String}
    (p : PatientSession) (h : detectedSymptomsIn catalog msg = []) :
    processSymptoms catalog p msg = p := by
  simp only [processSymptoms, h]

theorem processSymptoms_of_detected {catalog : List DatasetItem} {msg : String}
    {d : String} {rest : List String} (p : PatientSession)
    (h : detectedSymptomsIn catalog msg = d :: rest) :
    processSymptoms catalog p msg =
      { p with symptoms := pySetList (p.symptoms ++ d :: rest),
               phase := Phase.follow_up,
               currentSymptom := some d,
               currentQuestionIndex := 0 } := by
  simp only [processSymptoms, h]

theorem dictGet_cons (kv : String × List String) (t : List (String × List String))
    (k : String) :
    dictGet (kv :: t) k = if kv.1 == k then some kv.2 else dictGet t k := by
  by_cases h : kv.1 == k <;> simp [dictGet, List.find?, h]

theorem dictAppend_cons (kv : String × List String) (t : List (String × List String))
    (k : String) (v : String) :
    dictAppend (kv :: t) k v =
      (if kv.1 == k then (kv.1, kv.2 ++ [v]) else kv) :: dictAppend t k v := by
  simp [dictAppend]

theorem dictHasKey_append_self (d : List (String × List String)) (k : String)
    (v : List String) : dictHasKey (d ++ [(k, v)]) k = true := by
  induction d with
  | nil => simp [dictHasKey, dictGet, List.find?]
  | cons kv t ih =>
    by_cases h : kv.1 == k
    · simp [dictHasKey, List.cons_append, dictGet_cons, h]
    · simp [dictHasKey, List.cons_append, dictGet_cons, h]
      simpa [dictHasKey] using ih

theorem dictGet_append_of_not_has (d : List (String × List String)) (k : String)
    (v : List String) (h : dictHasKey d k = false) :
    dictGet (d ++ [(k, v)]) k = some v := by
  induction d with
  | nil => simp [dictGet, List.find?]
  | cons kv t ih =>
    rw [dictHasKey, dictGet_cons] at h
    by_cases hk : kv.1 == k
    · simp [hk] at h
    · rw [List.cons_append, dictGet_cons, if_neg hk]
      rw [if_neg hk] at h
      exact ih h

theorem dictGet_dictAppend_self (d : List (String × List String)) (k : String)
    (v : String) (l : List String) (h : dictGet d k = some l) :
    dictGet (dictAppend d k v) k = some (l ++ [v]) := by
  induction d with
  | nil => simp [dictGet] at h
  | cons kv t ih =>
    rw [dictGet_cons] at h
    rw [dictAppend_cons]
    by_cases hk : kv.1 == k
    · rw [if_pos hk] at h ⊢
      rw [dictGet_cons]
      simp only [hk, if_pos]
      simp only [Option.some.injEq] at h
      rw [h]
    · rw [if_neg hk] at h ⊢
      rw [dictGet_cons, if_neg hk]
      exact ih h

theorem dictGet_dictAppend_ne (d : List (String × List String)) (k k' : String)
    (v : String) (h : (k == k') = false) :
    dictGet (dictAppend d k' v) k = dictGet d k := by
  induction d with
  | nil => simp [dictGet, dictAppend]
  | cons kv t ih =>
    rw [dictAppend_cons, dictGet_cons, dictGet_cons]
    by_cases hk : kv.1 == k'
    · have hne : (kv.1 == k) = false := by
        have h1 : kv.1 = k' := by simpa using hk
        have h2 : ¬(k = k') := by simpa using h
        simp [h1]
        intro hc
        exact h2 hc.symm
      simp only [if_pos hk, hne, Bool.false_eq_true, if_false]
      rw [ih]
    · rw [if_neg hk]
      by_cases hkk : kv.1 == k
      · simp [dictGet_cons, hkk]
      · simp only [dictGet_cons, hkk, Bool.false_eq_true, if_false]
        exact ih

theorem dictAppend_map_fst (d : List (String × List String)) (k : String) (v : String) :
    (dictAppend d k v).map Prod.fst = d.map Prod.fst := by
  induction d with
  | nil => rfl
  | cons kv t ih =>
    rw [dictAppend_cons, List.map_cons, List.map_cons, ih]
    by_cases h : kv.1 == k <;> simp [h]

theorem dictHasKey_dictAppend (d : List (String × List String)) (k k' : String)
    (v : String) : dictHasKey (dictAppend d k' v) k = dictHasKey d k := by
  induction d with
  | nil => rfl
  | cons kv t ih =>
    rw [dictAppend_cons]
    unfold dictHasKey at ih ⊢
    rw [dictGet_cons, dictGet_cons]
    by_cases h : kv.1 == k'
    · by_cases hk : kv.1 == k <;> simp [h, hk, ih]
    · by_cases hk : kv.1 == k <;> simp [h, hk, ih]

theorem processFollowUp_eq (p : PatientSession) (cs : String) (msg : String)
    (hcs : p.currentSymptom = some cs) (hne : cs ≠ "") :
    processFollowUp p msg =
      some
        (if MAX_FOLLOW_UP_QUESTIONS ≤ p.currentQuestionIndex + 1 then
          { p with
            responses := dictAppend
              (if dictHasKey p.responses cs then p.responses else p.responses ++ [(cs, [])])
              cs (pyStrip msg),
            currentQuestionIndex := p.currentQuestionIndex + 1,
            phase := Phase.completed, currentSymptom := none }
        else
          { p with
            responses := dictAppend
              (if dictHasKey p.responses cs then p.responses else p.responses ++ [(cs, [])])
              cs (pyStrip msg),
            currentQuestionIndex := p.currentQuestionIndex + 1 }) := by
  unfold processFollowUp
  rw [hcs]
  simp only [strTruthy_some hne, if_true]
  by_cases hk : dictHasKey p.responses cs
  · simp only [hk, if_true, if_pos]
    rw [apply_ite some]
  · simp only [hk, Bool.false_eq_true, if_false, dictHasKey_append_self, if_pos]
    rw [apply_ite some]

theorem processFollowUp_isSome (p : PatientSession) (cs : String) (msg : String)
    (hcs : p.currentSymptom = some cs) (hne : cs ≠ "") :
    (processFollowUp p msg).isSome = true := by
  rw [processFollowUp_eq p cs msg hcs hne]
  rfl

theorem getNextFollowUpQuestion_snd (catalog : List DatasetItem) (p : PatientSession) :
    (getNextFollowUpQuestion catalog p).2 = p ∨
      (getNextFollowUpQuestion catalog p).2 = { p with phase := Phase.completed } := by
  unfold getNextFollowUpQuestion
  cases hcs : p.currentSymptom with
  | none => exact Or.inl rfl
  | some cs =>
    dsimp only
    cases hf : findSymptomData catalog cs with
    | none => exact Or.inl rfl
    | some item =>
      dsimp only
      by_cases hidx : p.currentQuestionIndex < (sequencerQuestions item).length ∧
          p.currentQuestionIndex < MAX_FOLLOW_UP_QUESTIONS
      · rw [dif_pos hidx]
        exact Or.inl rfl
      · rw [dif_neg hidx]
        exact Or.inr rfl

theorem step_spec {catalog : List DatasetItem} {ext : ExtractedInfo} {ai : String}
    {p : PatientSession} {msg : String} {out : StepOutput}
    (hout : processPatientMessage catalog ext ai p msg = some out) :
    ∃ p1 : PatientSession,
      (match p.phase with
       | Phase.basic_info => p1 = processBasicInfo ext p msg
       | Phase.symptoms => p1 = processSymptoms catalog p msg
       | Phase.follow_up => processFollowUp p msg = some p1
       | Phase.completed => p1 = p) ∧
      (out.session = p1 ∨ out.session = { p1 with phase := Phase.completed }) ∧
      out.notified = isConsultationComplete p1 := by
  unfold processPatientMessage at hout
  cases hph : p.phase with
  | basic_info =>
    rw [hph] at hout
    dsimp only at hout
    refine ⟨processBasicInfo ext p msg, rfl, ?_⟩
    cases hc : isConsultationComplete (processBasicInfo ext p msg) with
    | true =>
      rw [if_pos hc] at hout
      injection hout with h
      rw [← h]
      exact ⟨Or.inr rfl, rfl⟩
    | false =>
      rw [if_neg (by rw [hc]; exact Bool.false_ne_true)] at hout
      split at hout
      · injection hout with h
        rw [← h]
        dsimp only
        refine ⟨?_, rfl⟩
        exact getNextFollowUpQuestion_snd catalog _
      · injection hout with h
        rw [← h]
        exact ⟨Or.inl rfl, rfl⟩
  | symptoms =>
    rw [hph] at hout
    dsimp only at hout
    refine ⟨processSymptoms catalog p msg, rfl, ?_⟩
    cases hc : isConsultationComplete (processSymptoms catalog p msg) with
    | true =>
      rw [if_pos hc] at hout
      injection hout with h
      rw [← h]
      exact ⟨Or.inr rfl, rfl⟩
    | false =>
      rw [if_neg (by rw [hc]; exact Bool.false_ne_true)] at hout
      split at hout
      · injection hout with h
        rw [← h]
        dsimp only
        refine ⟨?_, rfl⟩
        exact getNextFollowUpQuestion_snd catalog _
      · injection hout with h
        rw [← h]
        exact ⟨Or.inl rfl, rfl⟩
  | follow_up =>
    rw [hph] at hout
    dsimp only at hout
    cases hq : processFollowUp p msg with
    | none =>
      rw [hq] at hout
      exact absurd hout (by simp)
    | some q =>
      rw [hq] at hout
      dsimp only at hout
      refine ⟨q, rfl, ?_⟩
      cases hc : isConsultationComplete q with
      | true =>
        rw [if_pos hc] at hout
        injection hout with h
        rw [← h]
        exact ⟨Or.inr rfl, rfl⟩
      | false =>
        rw [if_neg (by rw [hc]; exact Bool.false_ne_true)] at hout
        split at hout
        · injection hout with h
          rw [← h]
          dsimp only
          refine ⟨?_, rfl⟩
          exact getNextFollowUpQuestion_snd catalog _
        · injection hout with h
          rw [← h]
          exact ⟨Or.inl rfl, rfl⟩
  | completed =>
    rw [hph] at hout
    dsimp only at hout
    refine ⟨p, rfl, ?_⟩
    cases hc : isConsultationComplete p with
    | true =>
      rw [if_pos hc] at hout
      injection hout with h
      rw [← h]
      exact ⟨Or.inr rfl, rfl⟩
    | false =>
      rw [if_neg (by rw [hc]; exact Bool.false_ne_true)] at hout
      split at hout
      · injection hout with h
        rw [← h]
        dsimp only
        refine ⟨?_, rfl⟩
        exact getNextFollowUpQuestion_snd catalog _
      · injection hout with h
        rw [← h]
        exact ⟨Or.inl rfl, rfl⟩

theorem find?_eq_head?_filter {α : Type} (pr : α → Bool) (l : List α) :
    l.find? pr = (l.filter pr).head? := by
  induction l with
  | nil => rfl
  | cons a t ih =>
    by_cases h : pr a = true
    · rw [List.find?_cons_of_pos _ h, List.filter_cons_of_pos h]
      rfl
    · rw [List.find?_cons_of_neg _ h, List.filter_cons_of_neg h, ih]

theorem map_fst_overwrite (d : List (String × List String)) (k : String)
    (v : List String) :
    (d.map (fun kv => if kv.1 == k then (kv.1, v) else kv)).map Prod.fst =
      d.map Prod.fst := by
  induction d with
  | nil => rfl
  | cons kv t ih =>
    simp only [List.map_cons, ih]
    by_cases h : kv.1 == k <;> simp [h]

theorem mem_keys_dictSet {d : List (String × List String)} {k' : String}
    (k : String) (v : List String)
    (h : k' ∈ (dictSet d k v).map Prod.fst) :
    k' ∈ d.map Prod.fst ∨ k' = k := by
  unfold dictSet at h
  split at h
  · rw [map_fst_overwrite] at h
    exact Or.inl h
  · rw [List.map_append] at h
    rcases List.mem_append.mp h with h1 | h1
    · exact Or.inl h1
    · simp at h1
      exact Or.inr h1

theorem keys_symptomKeywords_foldl (catalog : List DatasetItem) :
    ∀ (acc : List (String × List String)) (k : String),
      k ∈ ((catalog.foldl (fun acc item =>
            dictSet acc (pyLower item.symptom)
              ([pyLower item.symptom] ++ symptomVariations (pyLower item.symptom)))
          acc).map Prod.fst) →
      k ∈ acc.map Prod.fst ∨ ∃ item ∈ catalog, k = pyLower item.symptom := by
  induction catalog with
  | nil =>
    intro acc k h
    exact Or.inl h
  | cons it t ih =>
    intro acc k h
    rw [List.foldl_cons] at h
    rcases ih _ k h with h1 | ⟨item, hm, he⟩
    · rcases mem_keys_dictSet _ _ h1 with h2 | rfl
      · exact Or.inl h2
      · exact Or.inr ⟨it, List.mem_cons_self it t, rfl⟩
    · exact Or.inr ⟨item, List.mem_cons_of_mem it hm, he⟩

theorem mem_keys_generateSymptomKeywords {catalog : List DatasetItem} {k : String}
    (h : k ∈ (generateSymptomKeywords catalog).map Prod.fst) :
    ∃ item ∈ catalog, k = pyLower item.symptom := by
  rcases keys_symptomKeywords_foldl catalog [] k h with h1 | h1
  · simp at h1
  · exact h1

theorem mem_detectedSymptoms_keys {catalog : List DatasetItem} {msg : String}
    {k : String} (h : k ∈ detectedSymptomsIn catalog msg) :
    k ∈ (generateSymptomKeywords catalog).map Prod.fst := by
  simp only [detectedSymptomsIn] at h
  rcases List.mem_map.mp h with ⟨kv, hkv, rfl⟩
  exact List.mem_map_of_mem _ (List.mem_filter.mp hkv).1

theorem processSymptoms_phase (catalog : List DatasetItem) (p : PatientSession)
    (msg : String) :
    (processSymptoms catalog p msg).phase = p.phase ∨
      (processSymptoms catalog p msg).phase = Phase.follow_up := by
  cases hdet : detectedSymptomsIn catalog msg with
  | nil =>
    rw [processSymptoms_of_none p hdet]
    exact Or.inl rfl
  | cons d rest =>
    rw [processSymptoms_of_detected p hdet]
    exact Or.inr rfl

theorem processSymptoms_fields (catalog : List DatasetItem) (p : PatientSession)
    (msg : String) :
    (processSymptoms catalog p msg).name = p.name ∧
      (processSymptoms catalog p msg).email = p.email ∧
      (processSymptoms catalog p msg).age = p.age ∧
      (processSymptoms catalog p msg).gender = p.gender ∧
      (processSymptoms catalog p msg).responses = p.responses := by
  cases hdet : detectedSymptomsIn catalog msg with
  | nil =>
    rw [processSymptoms_of_none p hdet]
    exact ⟨rfl, rfl, rfl, rfl, rfl⟩
  | cons d rest =>
    rw [processSymptoms_of_detected p hdet]
    exact ⟨rfl, rfl, rfl, rfl, rfl⟩

theorem processFollowUp_shape {p : PatientSession} {msg : String} {p1 : PatientSession}
    (h : processFollowUp p msg = some p1) :
    ∃ cs : String, p.currentSymptom = some cs ∧
      (p1 = { p with
                responses := dictAppend
                  (if dictHasKey p.responses cs then p.responses
                   else p.responses ++ [(cs, [])]) cs (pyStrip msg),
                currentQuestionIndex := p.currentQuestionIndex + 1,
                phase := Phase.completed, currentSymptom := none } ∨
       p1 = { p with
                responses := dictAppend
                  (if dictHasKey p.responses cs then p.responses
                   else p.responses ++ [(cs, [])]) cs (pyStrip msg),
                currentQuestionIndex := p.currentQuestionIndex + 1 }) := by
  simp only [processFollowUp] at h
  cases hcs : p.currentSymptom with
  | none =>
    rw [hcs] at h
    simp at h
  | some cs =>
    rw [hcs] at h
    refine ⟨cs, rfl, ?_⟩
    dsimp only at h
    by_cases hst : strTruthy (some cs) = true
    · rw [if_pos hst] at h
      by_cases hk : dictHasKey p.responses cs
      · rw [if_pos hk] at h
        rw [if_pos hk] at h
        split at h
        · injection h with h2
          rw [if_pos hk, ← h2]
          exact Or.inl rfl
        · injection h with h2
          rw [if_pos hk, ← h2]
          exact Or.inr rfl
      · rw [if_neg hk] at h
        rw [if_pos (dictHasKey_append_self p.responses cs [])] at h
        split at h
        · injection h with h2
          rw [if_neg hk, ← h2]
          exact Or.inl rfl
        · injection h with h2
          rw [if_neg hk, ← h2]
          exact Or.inr rfl
    · rw [if_neg hst] at h
      by_cases hk : dictHasKey p.responses cs
      · rw [if_pos hk] at h
        split at h
        · injection h with h2
          rw [if_pos hk, ← h2]
          exact Or.inl rfl
        · injection h with h2
          rw [if_pos hk, ← h2]
          exact Or.inr rfl
      · rw [if_neg (by simpa using hk)] at h
        simp at h

theorem sessionInv_initial : SessionInv initialSession := by
  constructor
  · intro hf
    simp [initialSession] at hf
  · intro k hk
    simp [initialSession] at hk

theorem sessionInv_completedVariant {p : PatientSession} (h : SessionInv p) :
    SessionInv { p with phase := Phase.completed } := by
  constructor
  · intro hf
    simp at hf
  · exact h.2

theorem sessionInv_step {catalog : List DatasetItem}
    (hcat : ∀ item ∈ catalog, pyLower item.symptom ≠ "")
    {p : PatientSession} (hinv : SessionInv p)
    {ext : ExtractedInfo} {ai msg : String} {out : StepOutput}
    (hout : processPatientMessage catalog ext ai p msg = some out) :
    SessionInv out.session := by
  obtain ⟨p1, hbr, hsess, -⟩ := step_spec hout
  have hinv1 : SessionInv p1 := by
    cases hph : p.phase with
    | basic_info =>
      rw [hph] at hbr
      dsimp only at hbr
      subst hbr
      constructor
      · intro hf
        rcases processBasicInfo_phase ext p msg with he | he
        · rw [hf, hph] at he
          exact Phase.noConfusion he
        · rw [hf] at he
          exact Phase.noConfusion he
      · intro k hk
        rw [processBasicInfo_responses] at hk
        rw [processBasicInfo_symptoms]
        exact hinv.2 k hk
    | symptoms =>
      rw [hph] at hbr
      dsimp only at hbr
      subst hbr
      cases hdet : detectedSymptomsIn catalog msg with
      | nil =>
        rw [processSymptoms_of_none p hdet]
        exact hinv
      | cons d rest =>
        rw [processSymptoms_of_detected p hdet]
        constructor
        · intro _
          refine ⟨d, rfl, ?_, ?_, ?_⟩
          · have hd : d ∈ detectedSymptomsIn catalog msg := by
              rw [hdet]
              exact List.mem_cons_self d rest
            obtain ⟨item, hmem, heq⟩ :=
              mem_keys_generateSymptomKeywords (mem_detectedSymptoms_keys hd)
            rw [heq]
            exact hcat item hmem
          · show d ∈ pySetList (p.symptoms ++ d :: rest)
            simp only [pySetList]
            exact List.mem_dedup.mpr (List.mem_append_right _ (List.mem_cons_self d rest))
          · intro h0
            exact absurd h0 (by simp)
        · intro k hk
          dsimp only at hk ⊢
          simp only [pySetList]
          exact List.mem_dedup.mpr (List.mem_append_left _ (hinv.2 k hk))
    | follow_up =>
      rw [hph] at hbr
      dsimp only at hbr
      obtain ⟨cs, hcs, hne, hmem, -⟩ := hinv.1 hph
      rw [processFollowUp_eq p cs msg hcs hne] at hbr
      injection hbr with hbr2
      split at hbr2
      · subst hbr2
        constructor
        · intro hf
          simp at hf
        · intro k hk
          dsimp only at hk ⊢
          rw [dictAppend_map_fst] at hk
          by_cases hk2 : dictHasKey p.responses cs
          · rw [if_pos hk2] at hk
            exact hinv.2 k hk
          · rw [if_neg hk2, List.map_append] at hk
            rcases List.mem_append.mp hk with h1 | h1
            · exact hinv.2 k h1
            · simp at h1
              rw [h1]
              exact hmem
      · subst hbr2
        constructor
        · intro _
          refine ⟨cs, hcs, hne, hmem, ?_⟩
          intro _
          dsimp only
          rw [dictHasKey_dictAppend]
          by_cases hk2 : dictHasKey p.responses cs
          · rw [if_pos hk2]
            exact hk2
          · rw [if_neg hk2]
            exact dictHasKey_append_self p.responses cs []
        · intro k hk
          dsimp only at hk ⊢
          rw [dictAppend_map_fst] at hk
          by_cases hk2 : dictHasKey p.responses cs
          · rw [if_pos hk2] at hk
            exact hinv.2 k hk
          · rw [if_neg hk2, List.map_append] at hk
            rcases List.mem_append.mp hk with h1 | h1
            · exact hinv.2 k h1
            · simp at h1
              rw [h1]
              exact hmem
    | completed =>
      rw [hph] at hbr
      dsimp only at hbr
      subst hbr
      exact hinv
  rcases hsess with h2 | h2
  · rw [h2]
    exact hinv1
  · rw [h2]
    exact sessionInv_completedVariant hinv1

theorem sessionInv_step_isSome {catalog : List DatasetItem}
    {p : PatientSession} (hinv : SessionInv p)
    (ext : ExtractedInfo) (ai msg : String) :
    (processPatientMessage catalog ext ai p msg).isSome = true := by
  unfold processPatientMessage
  cases hph : p.phase with
  | basic_info =>
    dsimp only
    repeat' split
    all_goals rfl
  | symptoms =>
    dsimp only
    repeat' split
    all_goals rfl
  | follow_up =>
    dsimp only
    obtain ⟨cs, hcs, hne, -, -⟩ := hinv.1 hph
    rw [processFollowUp_eq p cs msg hcs hne]
    dsimp only
    repeat' split
    all_goals rfl
  | completed =>
    dsimp only
    repeat' split
    all_goals rfl

theorem reachable_sessionInv {catalog : List DatasetItem}
    (hcat : ∀ item ∈ catalog, pyLower item.symptom ≠ "")
    {p : PatientSession} (h : Reachable catalog p) : SessionInv p := by
  induction h with
  | init => exact sessionInv_initial
  | step ext ai msg out hr hout ih => exact sessionInv_step hcat ih hout

theorem dictGet_followUpAppend (d : List (String × List String)) (cs v : String) :
    dictGet (dictAppend (if dictHasKey d cs then d else d ++ [(cs, [])]) cs v) cs =
      some ((dictGet d cs).getD [] ++ [v]) := by
  cases hg : dictGet d cs with
  | none =>
    have hk : dictHasKey d cs = false := by
      rw [dictHasKey, hg]
      rfl
    rw [if_neg (by simp [hk])]
    rw [dictGet_dictAppend_self _ _ _ [] (dictGet_append_of_not_has d cs [] hk)]
    simp
  | some l =>
    have hk : dictHasKey d cs = true := by
      rw [dictHasKey, hg]
      rfl
    rw [if_pos hk]
    rw [dictGet_dictAppend_self _ _ _ l hg]
    simp

/-! ### Claim theorems -/

/-- C1, counterexample: a session with name and email set, one detected
symptom and two recorded follow-up answers (both under the same symptom
key) satisfies the claimed completion criterion but not the code's
predicate, because `len(patient.responses)` counts responses-dict keys,
not recorded answers. -/
theorem claim1_counterexample :
    specClaimedComplete sessionTwoAnswersOneKey = true ∧
      totalRecordedResponses sessionTwoAnswersOneKey = 2 ∧
      isConsultationComplete sessionTwoAnswersOneKey = false := by
  refine ⟨?_, ?_, ?_⟩ <;> decide

/-- C1, amended: `isConsultationComplete` returns true iff name and email
are set (non-empty), symptoms is non-empty, and either the responses
mapping holds answer lists under at least two distinct symptom keys, or at
least one of age/gender is set and the responses mapping is non-empty. -/
theorem claim1_amended (p : PatientSession) :
    isConsultationComplete p = true ↔
      ((strTruthy p.name = true ∧ strTruthy p.email = true ∧ p.symptoms ≠ [] ∧
          2 ≤ p.responses.length) ∨
        (strTruthy p.name = true ∧ strTruthy p.email = true ∧
          (intTruthy p.age = true ∨ strTruthy p.gender = true) ∧
          p.symptoms ≠ [] ∧ p.responses ≠ [])) := by
  unfold isConsultationComplete
  simp only [Bool.or_eq_true, Bool.and_eq_true, decide_eq_true_eq, List.length_pos]
  tauto

/-- C1, witness for the amended theorem: a completed session with
demographics and one responses key satisfies the predicate through the
second route. -/
theorem claim1_witness : isConsultationComplete sessionDone = true :=
  (claim1_amended sessionDone).mpr
    (Or.inr ⟨by decide, by decide, Or.inl (by decide), by decide, by decide⟩)

/-- C2, counterexample: processing a further message on an
already-completed session that satisfies the completion predicate invokes
the notification dispatch again — the dispatch is not at-most-once per
session. -/
theorem claim2_counterexample :
    sessionDone.phase = Phase.completed ∧
      isConsultationComplete sessionDone = true ∧
      (processPatientMessage sampleCatalog noExtraction "ok" sessionDone
          "hello again").map StepOutput.notified = some true := by
  refine ⟨rfl, by decide, rfl⟩

/-- C2, amended: the summary/appointment dispatch fires on every processed
message for which the completion predicate holds after phase processing;
in particular every further message on an already-completed session
re-invokes the dispatch rather than being a no-op. -/
theorem claim2_amended (catalog : List DatasetItem) (ext : ExtractedInfo)
    (ai : String) (p : PatientSession) (msg : String)
    (hphase : p.phase = Phase.completed)
    (hc : isConsultationComplete p = true) :
    processPatientMessage catalog ext ai p msg =
      some { session := { p with phase := Phase.completed },
             response := generateCompletionMessage { p with phase := Phase.completed },
             notified := true } := by
  unfold processPatientMessage
  rw [hphase]
  dsimp only
  rw [if_pos hc]

/-- C2, witness for the amended theorem at a concrete completed session. -/
theorem claim2_witness :
    sessionDone.phase = Phase.completed ∧
      isConsultationComplete sessionDone = true ∧
      processPatientMessage sampleCatalog noExtraction "ok" sessionDone "hi" =
        some { session := { sessionDone with phase := Phase.completed },
               response := generateCompletionMessage
                 { sessionDone with phase := Phase.completed },
               notified := true } :=
  ⟨rfl, by decide,
    claim2_amended sampleCatalog noExtraction "ok" sessionDone "hi" rfl (by decide)⟩

/-- C3, counterexample: the Jane scenario.  The extractor sets name and
email on a fresh session, the message mentions no symptom keyword, and the
phase stays `basic_info` — name AND email is not the threshold the code
implements. -/
theorem claim3_counterexample :
    (processBasicInfo janeExtraction initialSession "Hi I am Jane, jane@x.com").name =
        some "Jane" ∧
      (processBasicInfo janeExtraction initialSession "Hi I am Jane, jane@x.com").email =
        some "jane@x.com" ∧
      (processBasicInfo janeExtraction initialSession "Hi I am Jane, jane@x.com").phase =
        Phase.basic_info := by
  refine ⟨?_, ?_, ?_⟩ <;> decide

/-- C3, amended: for a `basic_info`-phase session, the phase becomes
`symptoms` if and only if all four fields are known after the extractor
update, or at least three are known and the message mentions a hardcoded
symptom keyword, or name and email are known and the message mentions a
hardcoded symptom keyword; in particular, without a keyword mention and
with fewer than four known fields — so for name and email alone — the
phase stays `basic_info`. -/
theorem claim3_amended (ext : ExtractedInfo) (p : PatientSession) (msg : String)
    (hphase : p.phase = Phase.basic_info) :
    ((processBasicInfo ext p msg).phase = Phase.symptoms ↔
        (4 ≤ infoCountAfter ext p ∨
          (3 ≤ infoCountAfter ext p ∧ mentionsSymptomKeyword msg = true) ∨
          (strTruthy (updateIfEmptyStr p.name ext.name) = true ∧
            strTruthy (updateIfEmptyStr p.email ext.email) = true ∧
            mentionsSymptomKeyword msg = true))) ∧
      (mentionsSymptomKeyword msg = false → infoCountAfter ext p < 4 →
        (processBasicInfo ext p msg).phase = Phase.basic_info) := by
  have hiff : (processBasicInfo ext p msg).phase = Phase.symptoms ↔
      (4 ≤ infoCountAfter ext p ∨
        (3 ≤ infoCountAfter ext p ∧ mentionsSymptomKeyword msg = true) ∨
        (strTruthy (updateIfEmptyStr p.name ext.name) = true ∧
          strTruthy (updateIfEmptyStr p.email ext.email) = true ∧
          mentionsSymptomKeyword msg = true)) := by
    simp only [processBasicInfo, infoCountAfter, mentionsSymptomKeyword]
    rw [hphase]
    generalize strTruthy (updateIfEmptyStr p.name ext.name) = bn
    generalize strTruthy (updateIfEmptyStr p.email ext.email) = be
    generalize intTruthy (updateIfEmptyInt p.age ext.age) = ba
    generalize strTruthy (updateIfEmptyStr p.gender ext.gender) = bg
    generalize (basicInfoSymptomKeywords.any fun k => pyIn k (pyLower msg)) = bm
    cases bn <;> cases be <;> cases ba <;> cases bg <;> cases bm <;> simp
  refine ⟨hiff, ?_⟩
  intro hm hlt
  rcases processBasicInfo_phase ext p msg with he | he
  · rw [he, hphase]
  · exfalso
    rcases hiff.mp he with h3 | h3 | h3
    · omega
    · rw [hm] at h3
      exact Bool.false_ne_true h3.2
    · rw [hm] at h3
      exact Bool.false_ne_true h3.2.2

/-- C3, witness for the amended theorem: the Jane message extended with a
chest-pain mention advances the phase; the original no-mention Jane
message leaves it at `basic_info`. -/
theorem claim3_witness :
    (processBasicInfo janeExtraction initialSession
        "Hi I am Jane, jane@x.com, I have chest pain").phase = Phase.symptoms ∧
      (processBasicInfo janeExtraction initialSession
        "Hi I am Jane, jane@x.com").phase = Phase.basic_info :=
  ⟨(claim3_amended janeExtraction initialSession
      "Hi I am Jane, jane@x.com, I have chest pain" rfl).1.mpr
      (Or.inr (Or.inr ⟨by decide, by decide, by decide⟩)),
    (claim3_amended janeExtraction initialSession "Hi I am Jane, jane@x.com" rfl).2
      (by decide) (by decide)⟩

/-- C8, counterexample: when the current symptom has no dataset record the
sequencer returns the graceful closing line but leaves the phase at
`follow_up` — it does not force `completed`. -/
theorem claim8_counterexample :
    getNextFollowUpQuestion [] sessionUnknownSymptom =
        (fallbackClosingLine, sessionUnknownSymptom) ∧
      sessionUnknownSymptom.phase = Phase.follow_up ∧
      ¬(getNextFollowUpQuestion [] sessionUnknownSymptom).2.phase = Phase.completed := by
  refine ⟨rfl, rfl, ?_⟩
  decide

/-- C8, amended: for a current symptom absent from the dataset the
sequencer returns the graceful closing line and leaves the session
(including its phase) unchanged; being total, it raises nothing. -/
theorem claim8_amended (catalog : List DatasetItem) (p : PatientSession) (cs : String)
    (hcs : p.currentSymptom = some cs)
    (hfind : findSymptomData catalog cs = none) :
    getNextFollowUpQuestion catalog p = (fallbackClosingLine, p) := by
  unfold getNextFollowUpQuestion
  rw [hcs]
  dsimp only
  rw [hfind]

/-- C8, witness for the amended theorem at a concrete unmatched symptom. -/
theorem claim8_witness :
    sessionUnknownSymptom.currentSymptom = some "weird" ∧
      findSymptomData [] "weird" = none ∧
      getNextFollowUpQuestion [] sessionUnknownSymptom =
        (fallbackClosingLine, sessionUnknownSymptom) :=
  ⟨rfl, rfl, claim8_amended [] sessionUnknownSymptom "weird" rfl rfl⟩

/-- C9, counterexample: the loader's capped list for a record whose only
questions are in `red_flags` and `medical_history` is `["rf1"]`, but the
sequencer asks `"mh1"` — a question not in the loader's list — because it
reads the raw dataset categories `symptom_details`, `vital_signs` and
`medical_history` (not `red_flags`), uncapped. -/
theorem claim9_counterexample :
    loadedFollowUpQuestions samplePalpItem = ["rf1"] ∧
      (getNextFollowUpQuestion [samplePalpItem] sessionPalp).1 = "mh1" ∧
      "mh1" ∉ loadedFollowUpQuestions samplePalpItem := by
  refine ⟨rfl, rfl, ?_⟩
  decide

/-- C9, amended: the loader builds its capped list (at most 2
symptom-details, then at most 1 vital-signs, then at most 1 red-flags,
truncated to 4) as claimed, but the sequencer draws its questions from the
uncapped concatenation of the `symptom_details`, `vital_signs` and
`medical_history` categories of the raw dataset record instead. -/
theorem claim9_amended :
    (∀ item : DatasetItem, (loadedFollowUpQuestions item).length ≤ 4) ∧
      (∀ (catalog : List DatasetItem) (p : PatientSession) (cs : String)
        (item : DatasetItem), p.currentSymptom = some cs →
        findSymptomData catalog cs = some item →
        ∀ hlt : p.currentQuestionIndex < (sequencerQuestions item).length,
        p.currentQuestionIndex < MAX_FOLLOW_UP_QUESTIONS →
        (getNextFollowUpQuestion catalog p).1 =
          (sequencerQuestions item).get ⟨p.currentQuestionIndex, hlt⟩) := by
  constructor
  · intro item
    exact List.length_take_le 4 _
  · intro catalog p cs item hcs hfind hlt hmax
    unfold getNextFollowUpQuestion
    rw [hcs]
    dsimp only
    rw [hfind]
    dsimp only
    rw [dif_pos ⟨hlt, hmax⟩]

/-- C9, witness for the amended theorem at the palpitations record. -/
theorem claim9_witness :
    (loadedFollowUpQuestions samplePalpItem).length ≤ 4 ∧
      sessionPalp.currentSymptom = some "palpitations" ∧
      findSymptomData [samplePalpItem] "palpitations" = some samplePalpItem ∧
      (getNextFollowUpQuestion [samplePalpItem] sessionPalp).1 =
        (sequencerQuestions samplePalpItem).get ⟨0, by decide⟩ :=
  ⟨claim9_amended.1 samplePalpItem, rfl, by decide,
    claim9_amended.2 [samplePalpItem] sessionPalp "palpitations" samplePalpItem rfl
      (by decide) (by decide) (by decide)⟩

theorem intTruthy_some {n : Int} (h : n ≠ 0) : intTruthy (some n) = true := by
  simp [intTruthy, h]

theorem phaseRank_le_three (ph : Phase) : Phase.rank ph ≤ 3 := by
  cases ph <;> simp [Phase.rank]

/-- C5: on a symptoms-phase message, no detected symptom leaves the
session unchanged; at least one detected symptom moves the phase to
`follow_up`, sets `currentSymptom` to the first match in keyword-dict
(catalog) iteration order — witnessed by `List.find?` over the keyword
dict — resets the question index, and adds exactly the detected symptoms
to `symptoms` with duplicates removed. -/
theorem claim5 (catalog : List DatasetItem) (p : PatientSession) (msg : String) :
    (detectedSymptomsIn catalog msg = [] → processSymptoms catalog p msg = p) ∧
      (∀ d rest, detectedSymptomsIn catalog msg = d :: rest →
        (processSymptoms catalog p msg).phase = Phase.follow_up ∧
          (processSymptoms catalog p msg).currentSymptom = some d ∧
          (processSymptoms catalog p msg).currentQuestionIndex = 0 ∧
          (processSymptoms catalog p msg).symptoms.Nodup ∧
          (∀ s, s ∈ (processSymptoms catalog p msg).symptoms ↔
            s ∈ p.symptoms ∨ s ∈ detectedSymptomsIn catalog msg) ∧
          (∃ kws, (generateSymptomKeywords catalog).find?
              (fun kv => kv.2.any (fun k => pyIn k (pyLower msg))) = some (d, kws))) := by
  constructor
  · intro h
    exact processSymptoms_of_none p h
  · intro d rest h
    rw [processSymptoms_of_detected p h]
    refine ⟨rfl, rfl, rfl, ?_, ?_, ?_⟩
    · show (pySetList (p.symptoms ++ d :: rest)).Nodup
      simp only [pySetList]
      exact List.nodup_dedup _
    · intro s
      show s ∈ pySetList (p.symptoms ++ d :: rest) ↔ _
      simp only [pySetList, List.mem_dedup, List.mem_append, h]
    · rw [find?_eq_head?_filter]
      have h2 : ((generateSymptomKeywords catalog).filter
          (fun kv => kv.2.any (fun k => pyIn k (pyLower msg)))).map Prod.fst =
            d :: rest := by
        simpa only [detectedSymptomsIn] using h
      cases hfil : (generateSymptomKeywords catalog).filter
          (fun kv => kv.2.any (fun k => pyIn k (pyLower msg))) with
      | nil =>
        rw [hfil] at h2
        exact absurd h2 (by simp)
      | cons kv t =>
        rw [hfil] at h2
        simp only [List.map_cons, List.cons.injEq] at h2
        refine ⟨kv.2, ?_⟩
        show some kv = some (d, kv.2)
        rw [← h2.1]

/-- C5, witness: "I have chest pain" on a symptoms-phase session against
the sample catalog detects the chest-pain record and enters follow-up. -/
theorem claim5_witness :
    detectedSymptomsIn sampleCatalog "I have chest pain" =
        ["chest pain / discomfort"] ∧
      (processSymptoms sampleCatalog sessionSymptomsPhase "I have chest pain").phase =
        Phase.follow_up ∧
      (processSymptoms sampleCatalog sessionSymptomsPhase
          "I have chest pain").currentSymptom = some "chest pain / discomfort" ∧
      (processSymptoms sampleCatalog sessionSymptomsPhase
          "I have chest pain").currentQuestionIndex = 0 := by
  have h := (claim5 sampleCatalog sessionSymptomsPhase "I have chest pain").2
    "chest pain / discomfort" [] (by decide)
  exact ⟨by decide, h.1, h.2.1, h.2.2.1⟩

/-- C6: a demographic field already holding a non-empty (truthy) value is
never changed by processing a message, whatever the extractor returns. -/
theorem claim6 (catalog : List DatasetItem) (ext : ExtractedInfo) (ai : String)
    (p : PatientSession) (msg : String) (out : StepOutput)
    (hout : processPatientMessage catalog ext ai p msg = some out) :
    (∀ s, s ≠ "" → p.name = some s → out.session.name = some s) ∧
      (∀ s, s ≠ "" → p.email = some s → out.session.email = some s) ∧
      (∀ n : Int, n ≠ 0 → p.age = some n → out.session.age = some n) ∧
      (∀ s, s ≠ "" → p.gender = some s → out.session.gender = some s) := by
  obtain ⟨p1, hbr, hsess, -⟩ := step_spec hout
  have hfields :
      (p1.name = p.name ∨ p1.name = updateIfEmptyStr p.name ext.name) ∧
        (p1.email = p.email ∨ p1.email = updateIfEmptyStr p.email ext.email) ∧
        (p1.age = p.age ∨ p1.age = updateIfEmptyInt p.age ext.age) ∧
        (p1.gender = p.gender ∨ p1.gender = updateIfEmptyStr p.gender ext.gender) := by
    cases hph : p.phase with
    | basic_info =>
      rw [hph] at hbr
      dsimp only at hbr
      subst hbr
      exact ⟨Or.inr (processBasicInfo_name ext p msg),
        Or.inr (processBasicInfo_email ext p msg),
        Or.inr (processBasicInfo_age ext p msg),
        Or.inr (processBasicInfo_gender ext p msg)⟩
    | symptoms =>
      rw [hph] at hbr
      dsimp only at hbr
      subst hbr
      obtain ⟨h1, h2, h3, h4, -⟩ := processSymptoms_fields catalog p msg
      exact ⟨Or.inl h1, Or.inl h2, Or.inl h3, Or.inl h4⟩
    | follow_up =>
      rw [hph] at hbr
      dsimp only at hbr
      obtain ⟨cs, -, hs⟩ := processFollowUp_shape hbr
      rcases hs with rfl | rfl
      · exact ⟨Or.inl rfl, Or.inl rfl, Or.inl rfl, Or.inl rfl⟩
      · exact ⟨Or.inl rfl, Or.inl rfl, Or.inl rfl, Or.inl rfl⟩
    | completed =>
      rw [hph] at hbr
      dsimp only at hbr
      subst hbr
      exact ⟨Or.inl rfl, Or.inl rfl, Or.inl rfl, Or.inl rfl⟩
  have houtf : out.session.name = p1.name ∧ out.session.email = p1.email ∧
      out.session.age = p1.age ∧ out.session.gender = p1.gender := by
    rcases hsess with h2 | h2 <;> rw [h2] <;> exact ⟨rfl, rfl, rfl, rfl⟩
  refine ⟨?_, ?_, ?_, ?_⟩
  · intro s hs hsome
    have ht : strTruthy p.name = true := by
      rw [hsome]
      exact strTruthy_some hs
    rcases hfields.1 with he | he
    · rw [houtf.1, he, hsome]
    · rw [houtf.1, he, updateIfEmptyStr_of_set _ ht, hsome]
  · intro s hs hsome
    have ht : strTruthy p.email = true := by
      rw [hsome]
      exact strTruthy_some hs
    rcases hfields.2.1 with he | he
    · rw [houtf.2.1, he, hsome]
    · rw [houtf.2.1, he, updateIfEmptyStr_of_set _ ht, hsome]
  · intro n hn hsome
    have ht : intTruthy p.age = true := by
      rw [hsome]
      exact intTruthy_some hn
    rcases hfields.2.2.1 with he | he
    · rw [houtf.2.2.1, he, hsome]
    · rw [houtf.2.2.1, he, updateIfEmptyInt_of_set _ ht, hsome]
  · intro s hs hsome
    have ht : strTruthy p.gender = true := by
      rw [hsome]
      exact strTruthy_some hs
    rcases hfields.2.2.2 with he | he
    · rw [houtf.2.2.2, he, hsome]
    · rw [houtf.2.2.2, he, updateIfEmptyStr_of_set _ ht, hsome]

/-- C6, witness: the set name of a completed session survives processing a
further message with an extractor output that reports a different name. -/
theorem claim6_witness :
    sessionDone.name = some "Ann Lee" ∧
      sessionDoneStepOutput.session.name = some "Ann Lee" :=
  ⟨rfl, (claim6 sampleCatalog janeExtraction "ok" sessionDone "hello"
      sessionDoneStepOutput rfl).1 "Ann Lee" (by decide) rfl⟩

/-- C7: the phase rank never decreases across one processed message, and
`completed` is terminal. -/
theorem claim7 (catalog : List DatasetItem) (ext : ExtractedInfo) (ai : String)
    (p : PatientSession) (msg : String) (out : StepOutput)
    (hout : processPatientMessage catalog ext ai p msg = some out) :
    Phase.rank p.phase ≤ Phase.rank out.session.phase ∧
      (p.phase = Phase.completed → out.session.phase = Phase.completed) := by
  obtain ⟨p1, hbr, hsess, -⟩ := step_spec hout
  have hp1 : Phase.rank p.phase ≤ Phase.rank p1.phase := by
    cases hph : p.phase with
    | basic_info =>
      exact Nat.zero_le _
    | symptoms =>
      rw [hph] at hbr
      dsimp only at hbr
      subst hbr
      rcases processSymptoms_phase catalog p msg with he | he
      · rw [he, hph]
      · rw [he]
        decide
    | follow_up =>
      rw [hph] at hbr
      dsimp only at hbr
      obtain ⟨cs, -, hs⟩ := processFollowUp_shape hbr
      rcases hs with rfl | rfl
      · dsimp only
        decide
      · dsimp only
        rw [hph]
    | completed =>
      rw [hph] at hbr
      dsimp only at hbr
      subst hbr
      rw [hph]
  constructor
  · rcases hsess with h2 | h2
    · rw [h2]
      exact hp1
    · rw [h2]
      exact phaseRank_le_three p.phase
  · intro hcomp
    rw [hcomp] at hbr
    dsimp only at hbr
    subst hbr
    rcases hsess with h2 | h2
    · rw [h2]
      exact hcomp
    · rw [h2]

/-- C7, witness: a follow-up answer that completes the session raises the
rank from 2 to 3. -/
theorem claim7_witness :
    Phase.rank sessionFatigue.phase ≤ Phase.rank sessionFatigueStepOutput.session.phase ∧
      Phase.rank sessionFatigue.phase = 2 ∧
      Phase.rank sessionFatigueStepOutput.session.phase = 3 :=
  ⟨(claim7 [sampleFatigueItem] noExtraction "ok" sessionFatigue "ans"
      sessionFatigueStepOutput rfl).1, rfl, rfl⟩

/-- C4, counterexample: with a one-question record, the first follow-up
answer completes the session via the sequencer's exhaustion path, and
`currentSymptom` is NOT cleared (it remains `some "fatigue"`), contrary to
the claim that it is set to `None` on the transition. -/
theorem claim4_counterexample :
    (processPatientMessage [sampleFatigueItem] noExtraction "ok" sessionFatigue
        "ans").map (fun o => (o.session.phase, o.session.currentSymptom)) =
      some (Phase.completed, some "fatigue") := by
  rfl

/-- C4, amended: each follow-up answer is appended stripped, the index is
incremented, and the phase completes exactly when the index reaches
`MAX_FOLLOW_UP_QUESTIONS` or the sequencer's question list is exhausted —
but `currentSymptom` is cleared only on the `MAX` route; on the
exhaustion-first route it remains set. -/
theorem claim4_amended (catalog : List DatasetItem) (ext : ExtractedInfo) (ai : String)
    (p : PatientSession) (msg : String) (cs : String) (item : DatasetItem)
    (out : StepOutput)
    (hphase : p.phase = Phase.follow_up)
    (hcs : p.currentSymptom = some cs) (hne : cs ≠ "")
    (hfind : findSymptomData catalog cs = some item)
    (hnc : ∀ q, processFollowUp p msg = some q → isConsultationComplete q = false)
    (hout : processPatientMessage catalog ext ai p msg = some out) :
    dictGet out.session.responses cs =
        some ((dictGet p.responses cs).getD [] ++ [pyStrip msg]) ∧
      out.session.currentQuestionIndex = p.currentQuestionIndex + 1 ∧
      (out.session.phase = Phase.completed ↔
        (MAX_FOLLOW_UP_QUESTIONS ≤ p.currentQuestionIndex + 1 ∨
          (sequencerQuestions item).length ≤ p.currentQuestionIndex + 1)) ∧
      (MAX_FOLLOW_UP_QUESTIONS ≤ p.currentQuestionIndex + 1 →
        out.session.currentSymptom = none) ∧
      (p.currentQuestionIndex + 1 < MAX_FOLLOW_UP_QUESTIONS →
        (sequencerQuestions item).length ≤ p.currentQuestionIndex + 1 →
        out.session.currentSymptom = some cs) := by
  unfold processPatientMessage at hout
  rw [hphase] at hout
  dsimp only at hout
  rw [processFollowUp_eq p cs msg hcs hne] at hout
  dsimp only at hout
  by_cases hmax : MAX_FOLLOW_UP_QUESTIONS ≤ p.currentQuestionIndex + 1
  · rw [if_pos hmax] at hout
    have hq := hnc _ (by rw [processFollowUp_eq p cs msg hcs hne, if_pos hmax])
    rw [if_neg (by simp [hq])] at hout
    rw [if_neg (show ¬((Phase.completed == Phase.follow_up &&
      strTruthy (none : Option String)) = true) by decide)] at hout
    injection hout with h
    subst h
    refine ⟨dictGet_followUpAppend p.responses cs (pyStrip msg), rfl, ?_, ?_, ?_⟩
    · exact ⟨fun _ => Or.inl hmax, fun _ => rfl⟩
    · intro _
      rfl
    · intro hlt _
      exact absurd hmax (by omega)
  · rw [if_neg hmax] at hout
    have hq := hnc _ (by rw [processFollowUp_eq p cs msg hcs hne, if_neg hmax])
    rw [if_neg (by simp [hq])] at hout
    dsimp only at hout
    rw [hphase, hcs] at hout
    rw [if_pos (by simp [strTruthy_some hne])] at hout
    unfold getNextFollowUpQuestion at hout
    dsimp only at hout
    rw [hfind] at hout
    dsimp only at hout
    have hmax2 : p.currentQuestionIndex + 1 < MAX_FOLLOW_UP_QUESTIONS := by omega
    by_cases hlen : p.currentQuestionIndex + 1 < (sequencerQuestions item).length
    · rw [dif_pos ⟨hlen, hmax2⟩] at hout
      injection hout with h
      subst h
      refine ⟨dictGet_followUpAppend p.responses cs (pyStrip msg), rfl, ?_, ?_, ?_⟩
      · constructor
        · intro hcon
          exact absurd hcon (show Phase.follow_up ≠ Phase.completed by decide)
        · intro hcon
          rcases hcon with h1 | h1
          · exact absurd h1 hmax
          · exact absurd h1 (by omega)
      · intro h1
        exact absurd h1 hmax
      · intro _ h2
        exact absurd h2 (by omega)
    · rw [dif_neg (fun hc => hlen hc.1)] at hout
      injection hout with h
      subst h
      refine ⟨dictGet_followUpAppend p.responses cs (pyStrip msg), rfl, ?_, ?_, ?_⟩
      · exact ⟨fun _ => Or.inr (by omega), fun _ => rfl⟩
      · intro h1
        exact absurd h1 hmax
      · intro _ _
        rfl

/-- C4, witness for the amended theorem: the exhaustion-first route on the
one-question fatigue record. -/
theorem claim4_witness :
    sessionFatigue.phase = Phase.follow_up ∧
      dictGet sessionFatigueStepOutput.session.responses "fatigue" = some ["ans"] ∧
      sessionFatigueStepOutput.session.currentQuestionIndex = 1 ∧
      sessionFatigueStepOutput.session.phase = Phase.completed ∧
      sessionFatigueStepOutput.session.currentSymptom = some "fatigue" := by
  have h := claim4_amended [sampleFatigueItem] noExtraction "ok" sessionFatigue "ans"
    "fatigue" sampleFatigueItem sessionFatigueStepOutput rfl rfl (by decide) (by decide)
    (by
      intro q hq
      have h0 : processFollowUp sessionFatigue "ans" =
          some { sessionFatigue with
                 responses := [("fatigue", ["ans"])], currentQuestionIndex := 1 } := rfl
      rw [h0] at hq
      injection hq with h1
      rw [← h1]
      decide)
    rfl
  refine ⟨rfl, ?_, h.2.1, ?_, ?_⟩
  · exact h.1.trans (by decide)
  · exact (h.2.2.1).mpr (Or.inr (by decide))
  · exact h.2.2.2.2 (by decide) (by decide)

/-- C10: for every reachable session of a catalog whose (lowercased)
symptom names are non-empty, the follow-up phase always has a truthy
current symptom whose responses key exists once an answer has been
recorded, every responses key is a listed symptom, and processing any
message never hits the modelled `KeyError` (`processPatientMessage` is
`some`). -/
theorem claim10 (catalog : List DatasetItem)
    (hcat : ∀ item ∈ catalog, pyLower item.symptom ≠ "")
    (p : PatientSession) (hreach : Reachable catalog p) :
    (p.phase = Phase.follow_up →
      ∃ cs, p.currentSymptom = some cs ∧ cs ≠ "" ∧
        (0 < p.currentQuestionIndex → dictHasKey p.responses cs = true)) ∧
      (∀ k, k ∈ p.responses.map Prod.fst → k ∈ p.symptoms) ∧
      (∀ (ext : ExtractedInfo) (ai msg : String),
        (processPatientMessage catalog ext ai p msg).isSome = true) := by
  have hinv := reachable_sessionInv hcat hreach
  refine ⟨?_, hinv.2, ?_⟩
  · intro hf
    obtain ⟨cs, h1, h2, -, h4⟩ := hinv.1 hf
    exact ⟨cs, h1, h2, h4⟩
  · intro ext ai msg
    exact sessionInv_step_isSome hinv ext ai msg

/-- C10, witness: the safety conclusion applied to the initial session and
the sample catalog. -/
theorem claim10_witness :
    (processPatientMessage sampleCatalog noExtraction "ok" initialSession
      "hello").isSome = true :=
  (claim10 sampleCatalog (by decide) initialSession Reachable.init).2.2
    noExtraction "ok" "hello"

end CardioGenie
